import Mathlib

/-!
Shallow embedding of `src/simsre.py` (SimSRE): a per-tick simulation of
the work queue of an SRE team.  Pure data is embedded as Lean inductive types and
structures; the mutable `SRE_team` object becomes explicit state passing over
`TeamState`; the global Python `random` stream is modelled as a function
`rng : ℕ → ℕ` (each `random.randint(1,10)` call reads `rng i` for the next
index `i`, tracked in the state field `ridx`); Python float arithmetic on the
growth factor is modelled by exact rationals, with the Python 3 half-to-even
rounding `round` embedded as `pyRound`.
-/

namespace SimSRE

/-- Work categories, embedding the `SRE_WORK_TYPES` enum
(`OPERATIONAL=1, IN_TEAM_PROJECT=2, CROSS_TEAM_PROJECT=3, ONBOARDING=4`). -/
inductive SREWorkType where
  | OPERATIONAL
  | IN_TEAM_PROJECT
  | CROSS_TEAM_PROJECT
  | ONBOARDING
deriving DecidableEq

open SREWorkType

/-- Module constant `SRE_TEAM_CAPACITY = 10`. -/
def SRE_TEAM_CAPACITY : ℕ := 10

/-- Module constant `SRE_TEAM_ONBOARDINGS_LIMIT = 10`. -/
def SRE_TEAM_ONBOARDINGS_LIMIT : ℕ := 10

/-- Module constant `SRE_BASELINE_OPERATIONAL = 1`. -/
def SRE_BASELINE_OPERATIONAL : ℤ := 1

/-- Module constant `SRE_TEAM_MAX_OPERATIONAL = 20`. -/
def SRE_TEAM_MAX_OPERATIONAL : ℕ := 20

/-- Module constant `QUARTERLY_GROWTH = 1.15`, as an exact rational (given by
an explicit numerator/denominator so that it is kernel-computable). -/
def QUARTERLY_GROWTH : ℚ := ⟨23, 20, by decide, by decide⟩

/-- Module constant `SIM_DURATION = 100`. -/
def SIM_DURATION : ℕ := 100

/-- Module constant `SRE_WORK_DISTRIBUTION`: the default bootstrap
distribution, 4 OPERATIONAL + 4 IN_TEAM_PROJECT + 2 CROSS_TEAM_PROJECT. -/
def SRE_WORK_DISTRIBUTION : List SREWorkType :=
  [OPERATIONAL, OPERATIONAL, OPERATIONAL, OPERATIONAL,
   IN_TEAM_PROJECT, IN_TEAM_PROJECT, IN_TEAM_PROJECT, IN_TEAM_PROJECT,
   CROSS_TEAM_PROJECT, CROSS_TEAM_PROJECT]

/-- The configuration knobs of the program.  In the source these are module
level constants; the spec treats them as configuration, so they are gathered
here and the source values form `defaultConfig`. -/
structure Config where
  capacity : ℕ
  onboardLimit : ℕ
  maxOperational : ℕ
  growth : ℚ
  horizon : ℕ

/-- The configuration actually present in the source. -/
def defaultConfig : Config :=
  { capacity := SRE_TEAM_CAPACITY
    onboardLimit := SRE_TEAM_ONBOARDINGS_LIMIT
    maxOperational := SRE_TEAM_MAX_OPERATIONAL
    growth := QUARTERLY_GROWTH
    horizon := SIM_DURATION }

/-- The mutable state of one `SRE_team` object.  `work_items` is the deque
(head = left end), `assigned_history` and `performed_history` embed the two
`defaultdict(list)` history dictionaries as total functions on categories
(absent keys read as `[]`), `tracking` embeds the per-cycle
`defaultdict(int)` (absent keys read as `0`).  `ridx` is the position in the
global random stream (models the shared `random` module state consumed by
this team). -/
structure TeamState where
  work_items : List SREWorkType
  onboarding_in_progress : Bool
  onboardings : ℕ
  operational_work : ℤ
  ticks : ℕ
  assigned_history : SREWorkType → List ℕ
  performed_history : SREWorkType → List ℕ
  tracking : SREWorkType → ℕ
  ridx : ℕ

/-- Count of tokens of category `w` in a queue. -/
def countW (w : SREWorkType) : List SREWorkType → ℕ
  | [] => 0
  | x :: xs => (if x = w then 1 else 0) + countW w xs

/-- `deque.remove(v)`: remove the first occurrence of `v`; the `ValueError`
on absence is caught in `clear_first_of_type`, so absence is a no-op. -/
def removeFirst (w : SREWorkType) : List SREWorkType → List SREWorkType
  | [] => []
  | x :: xs => if x = w then xs else x :: removeFirst w xs

/-- `SRE_team.add_work`: append a token of the given category at the tail. -/
def add_work (w : SREWorkType) (s : TeamState) : TeamState :=
  { s with work_items := s.work_items ++ [w] }

/-- `SRE_team.clear_first_of_type`: remove the first token of the given
category if present, otherwise do nothing. -/
def clear_first_of_type (w : SREWorkType) (s : TeamState) : TeamState :=
  { s with work_items := removeFirst w s.work_items }

/-- Round-half-to-even of the fraction `n / d` (`d > 0`), computed with
floor division: `f = ⌊n/d⌋` and remainder `r = n - d*f ∈ [0, d)`; the
fractional part `r/d` is compared with `1/2` by comparing `2*r` with `d`. -/
def roundHalfEven (n d : ℤ) : ℤ :=
  let f := n.fdiv d
  let r := n.fmod d
  if 2 * r < d then f
  else if d < 2 * r then f + 1
  else if f % 2 = 0 then f else f + 1

/-- Python 3 `round` (round-half-to-even) applied to the product `b * g` of
an integer and a rational, as in `round(self.operational_work *
QUARTERLY_GROWTH)`; float representation error is abstracted by exact
rational arithmetic, and `b * g = (b * g.num) / g.den` needs no
normalisation before rounding. -/
def pyRound (b : ℤ) (g : ℚ) : ℤ :=
  roundHalfEven (b * g.num) (g.den : ℤ)

/-- The `for x in range(delta): self.add_work(OPERATIONAL)` loop. -/
def addOperationalN : ℕ → TeamState → TeamState
  | 0, s => s
  | k + 1, s => addOperationalN k (add_work OPERATIONAL s)

/-- `SRE_team.add_scaled_operational`.  Note that, exactly as in the source,
the newly computed `new_operational_work` is never written back to
`operational_work`: only the delta of tokens is appended. -/
def add_scaled_operational (cfg : Config) (s : TeamState) : TeamState :=
  let new_operational_work : ℤ :=
    pyRound s.operational_work cfg.growth + (s.onboardings : ℤ)
  let delta : ℤ := new_operational_work - s.operational_work
  if s.operational_work < (cfg.maxOperational : ℤ) then
    addOperationalN delta.toNat s
  else s

/-- The number of OPERATIONAL tokens `add_scaled_operational` appends: below
the cap, the (clamped) delta between the newly computed operational level and
the current baseline; at or above the cap, zero.  (`Int.toNat` clamps at 0
exactly like `range(delta)` over a possibly negative `delta`.) -/
def opDelta (cfg : Config) (s : TeamState) : ℕ :=
  if s.operational_work < (cfg.maxOperational : ℤ) then
    (pyRound s.operational_work cfg.growth + (s.onboardings : ℤ) - s.operational_work).toNat
  else 0

/-- First step of `SRE_team.assign_work`: with `random.randint(1,10) > 9`,
append one CROSS_TEAM_PROJECT, then best-effort remove two OPERATIONAL and
one IN_TEAM_PROJECT.  The draw is consumed unconditionally. -/
def crossStep (rng : ℕ → ℕ) (s : TeamState) : TeamState :=
  let d := rng s.ridx
  let s1 : TeamState := { s with ridx := s.ridx + 1 }
  if 9 < d then
    clear_first_of_type IN_TEAM_PROJECT
      (clear_first_of_type OPERATIONAL
        (clear_first_of_type OPERATIONAL
          (add_work CROSS_TEAM_PROJECT s1)))
  else s1

/-- Second step of `SRE_team.assign_work`: with `random.randint(1,10) > 8`,
and only when no onboarding is in progress and the lifetime limit is not
reached, set the guard, bump the count and append one ONBOARDING token.
Python evaluates the draw first (leftmost operand of `and`), so the draw is
consumed unconditionally. -/
def onboardStep (cfg : Config) (rng : ℕ → ℕ) (s : TeamState) : TeamState :=
  let d := rng s.ridx
  let s1 : TeamState := { s with ridx := s.ridx + 1 }
  if 8 < d ∧ s1.onboarding_in_progress = false ∧ s1.onboardings < cfg.onboardLimit then
    add_work ONBOARDING
      { s1 with onboarding_in_progress := true, onboardings := s1.onboardings + 1 }
  else s1

/-- `SRE_team.assign_work`: cross-team chance, onboarding chance, then the
unconditional scaled operational growth. -/
def assign_work (cfg : Config) (rng : ℕ → ℕ) (s : TeamState) : TeamState :=
  add_scaled_operational cfg (onboardStep cfg rng (crossStep rng s))

/-- Result of the `process_work` while-loop: the queue, the onboarding
guard, the per-cycle tally, the random stream position, and the loop-local
`op_counter` and `capacity` counters. -/
structure PResult where
  queue : List SREWorkType
  guard : Bool
  track : SREWorkType → ℕ
  ridx : ℕ
  op : ℕ
  capacity : ℕ

/-- `self.tracking[w] += 1`. -/
def bump (t : SREWorkType → ℕ) (w : SREWorkType) : SREWorkType → ℕ :=
  fun v => if v = w then t v + 1 else t v

/-- The `while capacity < SRE_TEAM_CAPACITY` loop of `SRE_team.process_work`,
embedded with a structural fuel parameter so that it is kernel-computable.
`process_work` supplies fuel `2 * capacity_limit + queue_length + 1`, which
is proved sufficient (`process_loop_exit_condition`); the out-of-fuel branch
returns the current state exactly like the loop exits.  The branches mirror
the source: IN_TEAM_PROJECT is requeued at the tail (capacity 1, tally 1);
OPERATIONAL below the 50% sub-cap is consumed (capacity 1, tally 1, the
condition `op_counter < 0.5 * SRE_TEAM_CAPACITY` over exact floats equals
`2 * op < capacity_limit`); OPERATIONAL at or above the sub-cap is dropped
(no capacity, no tally); CROSS_TEAM_PROJECT is consumed with a 50% carryover
draw (capacity 1, tally 1); ONBOARDING is consumed, spawns one
IN_TEAM_PROJECT and one OPERATIONAL at the tail, clears the guard, costs
capacity 2 and tallies 1 under CROSS_TEAM_PROJECT.  An empty pop
(`IndexError`) breaks the loop. -/
def processLoop (cfg : Config) (rng : ℕ → ℕ) :
    ℕ → List SREWorkType → Bool → (SREWorkType → ℕ) → ℕ → ℕ → ℕ → PResult
  | 0, queue, guard, track, ridx, op, capacity =>
      ⟨queue, guard, track, ridx, op, capacity⟩
  | fuel + 1, queue, guard, track, ridx, op, capacity =>
      if capacity < cfg.capacity then
        match queue with
        | [] => ⟨[], guard, track, ridx, op, capacity⟩
        | w :: rest =>
          match w with
          | IN_TEAM_PROJECT =>
              processLoop cfg rng fuel (rest ++ [IN_TEAM_PROJECT]) guard
                (bump track IN_TEAM_PROJECT) ridx op (capacity + 1)
          | OPERATIONAL =>
              if 2 * op < cfg.capacity then
                processLoop cfg rng fuel rest guard
                  (bump track OPERATIONAL) ridx (op + 1) (capacity + 1)
              else
                processLoop cfg rng fuel rest guard track ridx op capacity
          | CROSS_TEAM_PROJECT =>
              let d := rng ridx
              let rest2 := if 5 < d then rest ++ [CROSS_TEAM_PROJECT] else rest
              processLoop cfg rng fuel rest2 guard
                (bump track CROSS_TEAM_PROJECT) (ridx + 1) op (capacity + 1)
          | ONBOARDING =>
              processLoop cfg rng fuel (rest ++ [IN_TEAM_PROJECT, OPERATIONAL]) false
                (bump track CROSS_TEAM_PROJECT) ridx op (capacity + 2)
      else ⟨queue, guard, track, ridx, op, capacity⟩

/-- The `process_work` loop as called by `SRE_team.process_work`: cleared
tally, counters at zero, and the canonical (sufficient) fuel. -/
def processRun (cfg : Config) (rng : ℕ → ℕ) (s : TeamState) : PResult :=
  processLoop cfg rng (2 * cfg.capacity + s.work_items.length + 1)
    s.work_items s.onboarding_in_progress (fun _ => 0) s.ridx 0 0

/-- `SRE_team.process_work`: clear the tally, run the loop, and write the
effects of the loop back into the team state. -/
def process_work (cfg : Config) (rng : ℕ → ℕ) (s : TeamState) : TeamState :=
  let r := processRun cfg rng s
  { s with work_items := r.queue, onboarding_in_progress := r.guard,
           tracking := r.track, ridx := r.ridx }

/-- `SRE_team.census`: for every category append its count in the queue to
`assigned_history` and its per-cycle tally to `performed_history`.  The
source builds this with `Counter(...).most_common()` plus a zero-fill over
the remaining categories; since the four per-category lists are independent
and `Counter` lists exactly the categories with positive count, the net
effect per category is exactly one appended integer: the count (0 when
absent). -/
def census (s : TeamState) : TeamState :=
  { s with
    assigned_history := fun c => s.assigned_history c ++ [countW c s.work_items]
    performed_history := fun c => s.performed_history c ++ [s.tracking c] }

/-- One iteration of the `while True` loop in `SRE_team.run`: bump the tick
counter; on an empty queue refill with the default distribution (bootstrap
tick), otherwise census, then assign, then process (steady tick). -/
def tick (cfg : Config) (rng : ℕ → ℕ) (s : TeamState) : TeamState :=
  let s1 : TeamState := { s with ticks := s.ticks + 1 }
  if s1.work_items = [] then
    { s1 with work_items := SRE_WORK_DISTRIBUTION }
  else
    process_work cfg rng (assign_work cfg rng (census s1))

/-- Run `n` iterations of the `SRE_team.run` loop. -/
def runTicks (cfg : Config) (rng : ℕ → ℕ) : ℕ → TeamState → TeamState
  | 0, s => s
  | n + 1, s => runTicks cfg rng n (tick cfg rng s)

/-- `SRE_team.__init__`: empty queue, guard down, counters zeroed, baseline
operational work, empty histories, empty tally.  The constructor performs no
validation of any configuration value. -/
def initTeam : TeamState :=
  { work_items := []
    onboarding_in_progress := false
    onboardings := 0
    operational_work := SRE_BASELINE_OPERATIONAL
    ticks := 0
    assigned_history := fun _ => []
    performed_history := fun _ => []
    tracking := fun _ => 0
    ridx := 0 }

/-- The whole simulation: construct the team and run the ticks of the horizon
(`env.run(until=SIM_DURATION)` resumes `run` once per time unit). -/
def runSim (cfg : Config) (rng : ℕ → ℕ) : TeamState :=
  runTicks cfg rng cfg.horizon initTeam

/-- Number of steady (non-bootstrap) ticks among the next `n` ticks from
state `s`: a tick is steady exactly when the queue is non-empty at its
start. -/
def steadyCount (cfg : Config) (rng : ℕ → ℕ) : ℕ → TeamState → ℕ
  | 0, _ => 0
  | n + 1, s =>
      (if s.work_items = [] then 0 else 1) + steadyCount cfg rng n (tick cfg rng s)

/-- Sum of the per-cycle tally over the four categories. -/
def sum4 (t : SREWorkType → ℕ) : ℕ :=
  t OPERATIONAL + t IN_TEAM_PROJECT + t CROSS_TEAM_PROJECT + t ONBOARDING

/-- The onboarding exclusivity invariant: at most one ONBOARDING token is in
the queue, and the guard is up exactly when one is. -/
def OnbInv (s : TeamState) : Prop :=
  countW ONBOARDING s.work_items ≤ 1 ∧
    (s.onboarding_in_progress = true ↔ countW ONBOARDING s.work_items = 1)

/-! ## Basic lemmas about the queue operations -/

@[simp]
lemma countW_append (w : SREWorkType) (l1 l2 : List SREWorkType) :
    countW w (l1 ++ l2) = countW w l1 + countW w l2 := by
  induction l1 with
  | nil => simp [countW]
  | cons x xs ih => simp [countW, ih, Nat.add_assoc]

lemma countW_removeFirst (w v : SREWorkType) (h : w ≠ v) (l : List SREWorkType) :
    countW v (removeFirst w l) = countW v l := by
  induction l with
  | nil => rfl
  | cons x xs ih =>
    by_cases hx : x = w
    · subst hx
      simp [removeFirst, countW, fun hh : x = v => h hh]
    · simp [removeFirst, hx, countW, ih]

lemma countW_replicate_ne (w v : SREWorkType) (h : w ≠ v) (k : ℕ) :
    countW v (List.replicate k w) = 0 := by
  induction k with
  | zero => rfl
  | succ k ih => simp [List.replicate_succ, countW, h, ih]

lemma addOperationalN_eq (k : ℕ) (s : TeamState) :
    addOperationalN k s =
      { s with work_items := s.work_items ++ List.replicate k OPERATIONAL } := by
  induction k generalizing s with
  | zero => simp [addOperationalN]
  | succ k ih =>
    rw [addOperationalN, ih]
    simp [add_work, List.replicate_succ, List.append_assoc]

/-- Characterisation of `add_scaled_operational`: below the cap it appends
`max(round(b*g) + n - b, 0)` OPERATIONAL tokens at the tail, at or above the
cap it appends nothing; no other field changes. -/
lemma add_scaled_eq (cfg : Config) (s : TeamState) :
    add_scaled_operational cfg s =
      { s with work_items := s.work_items ++ List.replicate (opDelta cfg s) OPERATIONAL } := by
  rw [add_scaled_operational, opDelta]
  by_cases h : s.operational_work < (cfg.maxOperational : ℤ)
  · simp only [h, if_true, addOperationalN_eq]
  · simp [h]

/-! ## Frame lemmas: which fields each phase leaves untouched -/

@[simp]
lemma census_work_items (s : TeamState) : (census s).work_items = s.work_items := rfl

@[simp]
lemma census_tracking (s : TeamState) : (census s).tracking = s.tracking := rfl

@[simp]
lemma census_ticks (s : TeamState) : (census s).ticks = s.ticks := rfl

@[simp]
lemma census_operational (s : TeamState) :
    (census s).operational_work = s.operational_work := rfl

@[simp]
lemma census_guard (s : TeamState) :
    (census s).onboarding_in_progress = s.onboarding_in_progress := rfl

@[simp]
lemma census_onboardings (s : TeamState) : (census s).onboardings = s.onboardings := rfl

@[simp]
lemma census_assigned (s : TeamState) (c : SREWorkType) :
    (census s).assigned_history c = s.assigned_history c ++ [countW c s.work_items] := rfl

@[simp]
lemma census_performed (s : TeamState) (c : SREWorkType) :
    (census s).performed_history c = s.performed_history c ++ [s.tracking c] := rfl

@[simp]
lemma process_work_assigned (cfg : Config) (rng : ℕ → ℕ) (s : TeamState) :
    (process_work cfg rng s).assigned_history = s.assigned_history := rfl

@[simp]
lemma process_work_performed (cfg : Config) (rng : ℕ → ℕ) (s : TeamState) :
    (process_work cfg rng s).performed_history = s.performed_history := rfl

@[simp]
lemma process_work_ticks (cfg : Config) (rng : ℕ → ℕ) (s : TeamState) :
    (process_work cfg rng s).ticks = s.ticks := rfl

@[simp]
lemma process_work_operational (cfg : Config) (rng : ℕ → ℕ) (s : TeamState) :
    (process_work cfg rng s).operational_work = s.operational_work := rfl

@[simp]
lemma process_work_onboardings (cfg : Config) (rng : ℕ → ℕ) (s : TeamState) :
    (process_work cfg rng s).onboardings = s.onboardings := rfl

@[simp]
lemma process_work_tracking (cfg : Config) (rng : ℕ → ℕ) (s : TeamState) :
    (process_work cfg rng s).tracking = (processRun cfg rng s).track := rfl

@[simp]
lemma process_work_queue (cfg : Config) (rng : ℕ → ℕ) (s : TeamState) :
    (process_work cfg rng s).work_items = (processRun cfg rng s).queue := rfl

@[simp]
lemma process_work_guard (cfg : Config) (rng : ℕ → ℕ) (s : TeamState) :
    (process_work cfg rng s).onboarding_in_progress = (processRun cfg rng s).guard := rfl

@[simp]
lemma crossStep_assigned (rng : ℕ → ℕ) (s : TeamState) :
    (crossStep rng s).assigned_history = s.assigned_history := by
  simp only [crossStep]; split <;> rfl

@[simp]
lemma crossStep_performed (rng : ℕ → ℕ) (s : TeamState) :
    (crossStep rng s).performed_history = s.performed_history := by
  simp only [crossStep]; split <;> rfl

@[simp]
lemma crossStep_tracking (rng : ℕ → ℕ) (s : TeamState) :
    (crossStep rng s).tracking = s.tracking := by
  simp only [crossStep]; split <;> rfl

@[simp]
lemma crossStep_ticks (rng : ℕ → ℕ) (s : TeamState) :
    (crossStep rng s).ticks = s.ticks := by
  simp only [crossStep]; split <;> rfl

@[simp]
lemma crossStep_operational (rng : ℕ → ℕ) (s : TeamState) :
    (crossStep rng s).operational_work = s.operational_work := by
  simp only [crossStep]; split <;> rfl

@[simp]
lemma crossStep_onboardings (rng : ℕ → ℕ) (s : TeamState) :
    (crossStep rng s).onboardings = s.onboardings := by
  simp only [crossStep]; split <;> rfl

@[simp]
lemma crossStep_guard (rng : ℕ → ℕ) (s : TeamState) :
    (crossStep rng s).onboarding_in_progress = s.onboarding_in_progress := by
  simp only [crossStep]; split <;> rfl

@[simp]
lemma crossStep_count_onb (rng : ℕ → ℕ) (s : TeamState) :
    countW ONBOARDING (crossStep rng s).work_items = countW ONBOARDING s.work_items := by
  simp only [crossStep]
  split
  · simp [clear_first_of_type, add_work, countW_removeFirst, countW]
  · rfl

@[simp]
lemma onboardStep_assigned (cfg : Config) (rng : ℕ → ℕ) (s : TeamState) :
    (onboardStep cfg rng s).assigned_history = s.assigned_history := by
  simp only [onboardStep]; split <;> rfl

@[simp]
lemma onboardStep_performed (cfg : Config) (rng : ℕ → ℕ) (s : TeamState) :
    (onboardStep cfg rng s).performed_history = s.performed_history := by
  simp only [onboardStep]; split <;> rfl

@[simp]
lemma onboardStep_tracking (cfg : Config) (rng : ℕ → ℕ) (s : TeamState) :
    (onboardStep cfg rng s).tracking = s.tracking := by
  simp only [onboardStep]; split <;> rfl

@[simp]
lemma onboardStep_ticks (cfg : Config) (rng : ℕ → ℕ) (s : TeamState) :
    (onboardStep cfg rng s).ticks = s.ticks := by
  simp only [onboardStep]; split <;> rfl

@[simp]
lemma onboardStep_operational (cfg : Config) (rng : ℕ → ℕ) (s : TeamState) :
    (onboardStep cfg rng s).operational_work = s.operational_work := by
  simp only [onboardStep]; split <;> rfl

@[simp]
lemma assign_work_assigned (cfg : Config) (rng : ℕ → ℕ) (s : TeamState) :
    (assign_work cfg rng s).assigned_history = s.assigned_history := by
  simp [assign_work, add_scaled_eq]

@[simp]
lemma assign_work_performed (cfg : Config) (rng : ℕ → ℕ) (s : TeamState) :
    (assign_work cfg rng s).performed_history = s.performed_history := by
  simp [assign_work, add_scaled_eq]

@[simp]
lemma assign_work_tracking (cfg : Config) (rng : ℕ → ℕ) (s : TeamState) :
    (assign_work cfg rng s).tracking = s.tracking := by
  simp [assign_work, add_scaled_eq]

@[simp]
lemma assign_work_ticks (cfg : Config) (rng : ℕ → ℕ) (s : TeamState) :
    (assign_work cfg rng s).ticks = s.ticks := by
  simp [assign_work, add_scaled_eq]

@[simp]
lemma assign_work_operational (cfg : Config) (rng : ℕ → ℕ) (s : TeamState) :
    (assign_work cfg rng s).operational_work = s.operational_work := by
  simp [assign_work, add_scaled_eq]

/-! ## Invariants of the processing loop -/

/-- The processing loop preserves the onboarding exclusivity invariant: if at
most one ONBOARDING token is queued and the guard is up exactly when one is,
the same holds at every step of the loop and at its exit (the ONBOARDING
branch pops the unique token and lowers the guard; no branch enqueues an
ONBOARDING token). -/
lemma processLoop_onb_inv (cfg : Config) (rng : ℕ → ℕ) :
    ∀ (fuel : ℕ) (queue : List SREWorkType) (guard : Bool) (track : SREWorkType → ℕ)
      (ridx op capacity : ℕ),
      countW ONBOARDING queue ≤ 1 →
      (guard = true ↔ countW ONBOARDING queue = 1) →
      countW ONBOARDING (processLoop cfg rng fuel queue guard track ridx op capacity).queue ≤ 1 ∧
        ((processLoop cfg rng fuel queue guard track ridx op capacity).guard = true ↔
          countW ONBOARDING (processLoop cfg rng fuel queue guard track ridx op capacity).queue = 1) := by
  intro fuel
  induction fuel with
  | zero =>
    intro queue guard track ridx op capacity h1 h2
    exact ⟨h1, h2⟩
  | succ fuel ih =>
    intro queue guard track ridx op capacity h1 h2
    by_cases hc : capacity < cfg.capacity
    · cases queue with
      | nil =>
        simp only [processLoop, if_pos hc]
        exact ⟨h1, h2⟩
      | cons w rest =>
        cases w with
        | OPERATIONAL =>
          by_cases hop : 2 * op < cfg.capacity
          · simp only [processLoop, if_pos hc, if_pos hop]
            exact ih rest guard _ ridx (op + 1) (capacity + 1)
              (by simpa [countW] using h1) (by simpa [countW] using h2)
          · simp only [processLoop, if_pos hc, if_neg hop]
            exact ih rest guard track ridx op capacity
              (by simpa [countW] using h1) (by simpa [countW] using h2)
        | IN_TEAM_PROJECT =>
          simp only [processLoop, if_pos hc]
          exact ih (rest ++ [IN_TEAM_PROJECT]) guard _ ridx op (capacity + 1)
            (by simpa [countW] using h1) (by simpa [countW] using h2)
        | CROSS_TEAM_PROJECT =>
          by_cases hd : 5 < rng ridx
          · simp only [processLoop, if_pos hc, if_pos hd]
            exact ih (rest ++ [CROSS_TEAM_PROJECT]) guard _ (ridx + 1) op (capacity + 1)
              (by simpa [countW] using h1) (by simpa [countW] using h2)
          · simp only [processLoop, if_pos hc, if_neg hd]
            exact ih rest guard _ (ridx + 1) op (capacity + 1)
              (by simpa [countW] using h1) (by simpa [countW] using h2)
        | ONBOARDING =>
          have h0 : countW ONBOARDING rest = 0 := by
            have h1a := h1
            simp [countW] at h1a
            omega
          simp only [processLoop, if_pos hc]
          exact ih (rest ++ [IN_TEAM_PROJECT, OPERATIONAL]) false _ ridx op (capacity + 2)
            (by simp [countW, h0]) (by simp [countW, h0])
    · simp only [processLoop, if_neg hc]
      exact ⟨h1, h2⟩

@[simp]
lemma bump_sum4 (t : SREWorkType → ℕ) (w : SREWorkType) : sum4 (bump t w) = sum4 t + 1 := by
  cases w <;> simp [sum4, bump] <;> omega

/-- No branch of the processing loop ever increments the ONBOARDING tally:
the ONBOARDING branch tallies under CROSS_TEAM_PROJECT. -/
lemma processLoop_track_onb (cfg : Config) (rng : ℕ → ℕ) :
    ∀ (fuel : ℕ) (queue : List SREWorkType) (guard : Bool) (track : SREWorkType → ℕ)
      (ridx op capacity : ℕ),
      (processLoop cfg rng fuel queue guard track ridx op capacity).track ONBOARDING =
        track ONBOARDING := by
  intro fuel
  induction fuel with
  | zero => intro queue guard track ridx op capacity; rfl
  | succ fuel ih =>
    intro queue guard track ridx op capacity
    by_cases hc : capacity < cfg.capacity
    · cases queue with
      | nil => simp only [processLoop, if_pos hc]
      | cons w rest =>
        cases w with
        | OPERATIONAL =>
          by_cases hop : 2 * op < cfg.capacity
          · simp only [processLoop, if_pos hc, if_pos hop, ih, bump]
            simp
          · simp only [processLoop, if_pos hc, if_neg hop, ih]
        | IN_TEAM_PROJECT =>
          simp only [processLoop, if_pos hc, ih, bump]
          simp
        | CROSS_TEAM_PROJECT =>
          by_cases hd : 5 < rng ridx
          · simp only [processLoop, if_pos hc, if_pos hd, ih, bump]
            simp
          · simp only [processLoop, if_pos hc, if_neg hd, ih, bump]
            simp
        | ONBOARDING =>
          simp only [processLoop, if_pos hc, ih, bump]
          simp
    · simp only [processLoop, if_neg hc]

/-- OPERATIONAL sub-cap invariant of the processing loop: the OPERATIONAL
tally never exceeds the `op_counter`, which the 50% guard keeps at or below
`(capacity_limit + 1) / 2`. -/
lemma processLoop_op_bound (cfg : Config) (rng : ℕ → ℕ) :
    ∀ (fuel : ℕ) (queue : List SREWorkType) (guard : Bool) (track : SREWorkType → ℕ)
      (ridx op capacity : ℕ),
      track OPERATIONAL ≤ op → 2 * op ≤ cfg.capacity + 1 →
      (processLoop cfg rng fuel queue guard track ridx op capacity).track OPERATIONAL ≤
          (processLoop cfg rng fuel queue guard track ridx op capacity).op ∧
        2 * (processLoop cfg rng fuel queue guard track ridx op capacity).op ≤
          cfg.capacity + 1 := by
  intro fuel
  induction fuel with
  | zero =>
    intro queue guard track ridx op capacity h1 h2
    exact ⟨h1, h2⟩
  | succ fuel ih =>
    intro queue guard track ridx op capacity h1 h2
    by_cases hc : capacity < cfg.capacity
    · cases queue with
      | nil =>
        simp only [processLoop, if_pos hc]
        exact ⟨h1, h2⟩
      | cons w rest =>
        cases w with
        | OPERATIONAL =>
          by_cases hop : 2 * op < cfg.capacity
          · simp only [processLoop, if_pos hc, if_pos hop]
            exact ih rest guard _ ridx (op + 1) (capacity + 1)
              (by simp [bump]; omega) (by omega)
          · simp only [processLoop, if_pos hc, if_neg hop]
            exact ih rest guard track ridx op capacity h1 h2
        | IN_TEAM_PROJECT =>
          simp only [processLoop, if_pos hc]
          exact ih (rest ++ [IN_TEAM_PROJECT]) guard _ ridx op (capacity + 1)
            (by simp [bump, h1]) h2
        | CROSS_TEAM_PROJECT =>
          by_cases hd : 5 < rng ridx
          · simp only [processLoop, if_pos hc, if_pos hd]
            exact ih (rest ++ [CROSS_TEAM_PROJECT]) guard _ (ridx + 1) op (capacity + 1)
              (by simp [bump, h1]) h2
          · simp only [processLoop, if_pos hc, if_neg hd]
            exact ih rest guard _ (ridx + 1) op (capacity + 1)
              (by simp [bump, h1]) h2
        | ONBOARDING =>
          simp only [processLoop, if_pos hc]
          exact ih (rest ++ [IN_TEAM_PROJECT, OPERATIONAL]) false _ ridx op (capacity + 2)
            (by simp [bump, h1]) h2
    · simp only [processLoop, if_neg hc]
      exact ⟨h1, h2⟩

/-- Capacity accounting invariant of the processing loop: the total tally is
bounded by the capacity counter and by the capacity limit, and the capacity
counter overshoots the limit by at most 1 (only the ONBOARDING branch, which
adds 2, can jump past it). -/
lemma processLoop_sum_bound (cfg : Config) (rng : ℕ → ℕ) :
    ∀ (fuel : ℕ) (queue : List SREWorkType) (guard : Bool) (track : SREWorkType → ℕ)
      (ridx op capacity : ℕ),
      sum4 track ≤ capacity → sum4 track ≤ cfg.capacity → capacity ≤ cfg.capacity + 1 →
      sum4 (processLoop cfg rng fuel queue guard track ridx op capacity).track ≤
          (processLoop cfg rng fuel queue guard track ridx op capacity).capacity ∧
        sum4 (processLoop cfg rng fuel queue guard track ridx op capacity).track ≤
          cfg.capacity ∧
        (processLoop cfg rng fuel queue guard track ridx op capacity).capacity ≤
          cfg.capacity + 1 := by
  intro fuel
  induction fuel with
  | zero =>
    intro queue guard track ridx op capacity h1 h2 h3
    exact ⟨h1, h2, h3⟩
  | succ fuel ih =>
    intro queue guard track ridx op capacity h1 h2 h3
    by_cases hc : capacity < cfg.capacity
    · cases queue with
      | nil =>
        simp only [processLoop, if_pos hc]
        exact ⟨h1, h2, h3⟩
      | cons w rest =>
        cases w with
        | OPERATIONAL =>
          by_cases hop : 2 * op < cfg.capacity
          · simp only [processLoop, if_pos hc, if_pos hop]
            exact ih rest guard _ ridx (op + 1) (capacity + 1)
              (by simp; omega) (by simp; omega) (by omega)
          · simp only [processLoop, if_pos hc, if_neg hop]
            exact ih rest guard track ridx op capacity h1 h2 h3
        | IN_TEAM_PROJECT =>
          simp only [processLoop, if_pos hc]
          exact ih (rest ++ [IN_TEAM_PROJECT]) guard _ ridx op (capacity + 1)
            (by simp; omega) (by simp; omega) (by omega)
        | CROSS_TEAM_PROJECT =>
          by_cases hd : 5 < rng ridx
          · simp only [processLoop, if_pos hc, if_pos hd]
            exact ih (rest ++ [CROSS_TEAM_PROJECT]) guard _ (ridx + 1) op (capacity + 1)
              (by simp; omega) (by simp; omega) (by omega)
          · simp only [processLoop, if_pos hc, if_neg hd]
            exact ih rest guard _ (ridx + 1) op (capacity + 1)
              (by simp; omega) (by simp; omega) (by omega)
        | ONBOARDING =>
          simp only [processLoop, if_pos hc]
          exact ih (rest ++ [IN_TEAM_PROJECT, OPERATIONAL]) false _ ridx op (capacity + 2)
            (by simp; omega) (by simp; omega) (by omega)
    · simp only [processLoop, if_neg hc]
      exact ⟨h1, h2, h3⟩

/-- Fuel sufficiency and exit condition: with fuel exceeding the measure
`2 * (capacity_limit - capacity) + queue_length`, the loop stops only by
reaching the capacity limit or by finding the queue empty at a pop. -/
lemma processLoop_exit (cfg : Config) (rng : ℕ → ℕ) :
    ∀ (fuel : ℕ) (queue : List SREWorkType) (guard : Bool) (track : SREWorkType → ℕ)
      (ridx op capacity : ℕ),
      2 * (cfg.capacity - capacity) + queue.length < fuel →
      cfg.capacity ≤ (processLoop cfg rng fuel queue guard track ridx op capacity).capacity ∨
        (processLoop cfg rng fuel queue guard track ridx op capacity).queue = [] := by
  intro fuel
  induction fuel with
  | zero =>
    intro queue guard track ridx op capacity hf
    omega
  | succ fuel ih =>
    intro queue guard track ridx op capacity hf
    by_cases hc : capacity < cfg.capacity
    · cases queue with
      | nil =>
        simp only [processLoop, if_pos hc]
        exact Or.inr trivial
      | cons w rest =>
        simp only [List.length_cons] at hf
        cases w with
        | OPERATIONAL =>
          by_cases hop : 2 * op < cfg.capacity
          · simp only [processLoop, if_pos hc, if_pos hop]
            exact ih rest guard _ ridx (op + 1) (capacity + 1) (by omega)
          · simp only [processLoop, if_pos hc, if_neg hop]
            exact ih rest guard track ridx op capacity (by omega)
        | IN_TEAM_PROJECT =>
          simp only [processLoop, if_pos hc]
          exact ih (rest ++ [IN_TEAM_PROJECT]) guard _ ridx op (capacity + 1)
            (by simp; omega)
        | CROSS_TEAM_PROJECT =>
          by_cases hd : 5 < rng ridx
          · simp only [processLoop, if_pos hc, if_pos hd]
            exact ih (rest ++ [CROSS_TEAM_PROJECT]) guard _ (ridx + 1) op (capacity + 1)
              (by simp; omega)
          · simp only [processLoop, if_pos hc, if_neg hd]
            exact ih rest guard _ (ridx + 1) op (capacity + 1) (by omega)
        | ONBOARDING =>
          simp only [processLoop, if_pos hc]
          exact ih (rest ++ [IN_TEAM_PROJECT, OPERATIONAL]) false _ ridx op (capacity + 2)
            (by simp; omega)
    · simp only [processLoop, if_neg hc]
      exact Or.inl (by omega)

/-! ## Per-phase preservation of the onboarding exclusivity invariant -/

@[simp]
lemma add_scaled_count_onb (cfg : Config) (s : TeamState) :
    countW ONBOARDING (add_scaled_operational cfg s).work_items =
      countW ONBOARDING s.work_items := by
  rw [add_scaled_eq]
  simp [countW_replicate_ne OPERATIONAL ONBOARDING (by decide)]

@[simp]
lemma add_scaled_guard (cfg : Config) (s : TeamState) :
    (add_scaled_operational cfg s).onboarding_in_progress = s.onboarding_in_progress := by
  rw [add_scaled_eq]

lemma crossStep_inv (rng : ℕ → ℕ) (s : TeamState) (h : OnbInv s) :
    OnbInv (crossStep rng s) := by
  obtain ⟨h1, h2⟩ := h
  constructor
  · rw [crossStep_count_onb]; exact h1
  · rw [crossStep_guard, crossStep_count_onb]; exact h2

lemma onboardStep_inv (cfg : Config) (rng : ℕ → ℕ) (s : TeamState) (h : OnbInv s) :
    OnbInv (onboardStep cfg rng s) := by
  obtain ⟨h1, h2⟩ := h
  simp only [onboardStep]
  split
  case isTrue hcond =>
    have hg : s.onboarding_in_progress = false := hcond.2.1
    have h0 : countW ONBOARDING s.work_items = 0 := by
      have hne : countW ONBOARDING s.work_items ≠ 1 := by
        intro hq
        have hgt := h2.mpr hq
        rw [hgt] at hg
        exact Bool.noConfusion hg
      omega
    constructor
    · simp [add_work, h0, countW]
    · simp [add_work, h0, countW]
  case isFalse _ =>
    exact ⟨h1, h2⟩

lemma add_scaled_inv (cfg : Config) (s : TeamState) (h : OnbInv s) :
    OnbInv (add_scaled_operational cfg s) := by
  obtain ⟨h1, h2⟩ := h
  constructor
  · rw [add_scaled_count_onb]; exact h1
  · rw [add_scaled_guard, add_scaled_count_onb]; exact h2

lemma assign_work_inv (cfg : Config) (rng : ℕ → ℕ) (s : TeamState) (h : OnbInv s) :
    OnbInv (assign_work cfg rng s) :=
  add_scaled_inv cfg _ (onboardStep_inv cfg rng _ (crossStep_inv rng s h))

lemma process_work_inv (cfg : Config) (rng : ℕ → ℕ) (s : TeamState) (h : OnbInv s) :
    OnbInv (process_work cfg rng s) := by
  have hmain := processLoop_onb_inv cfg rng (2 * cfg.capacity + s.work_items.length + 1)
    s.work_items s.onboarding_in_progress (fun _ => 0) s.ridx 0 0 h.1 h.2
  exact ⟨hmain.1, hmain.2⟩

lemma initTeam_inv : OnbInv initTeam :=
  ⟨by decide, by decide⟩

lemma tick_inv (cfg : Config) (rng : ℕ → ℕ) (s : TeamState) (h : OnbInv s) :
    OnbInv (tick cfg rng s) := by
  simp only [tick]
  split
  case isTrue hq =>
    have hq0 : countW ONBOARDING s.work_items = 0 := by
      have : s.work_items = [] := hq
      rw [this]
      rfl
    have hg : s.onboarding_in_progress = false := by
      cases hgb : s.onboarding_in_progress
      · rfl
      · have := h.2.mp hgb
        rw [hq0] at this
        exact absurd this (by decide)
    constructor
    · show countW ONBOARDING SRE_WORK_DISTRIBUTION ≤ 1
      decide
    · show s.onboarding_in_progress = true ↔ countW ONBOARDING SRE_WORK_DISTRIBUTION = 1
      rw [hg]
      decide
  case isFalse _ =>
    exact process_work_inv cfg rng _ (assign_work_inv cfg rng _ (census_inv_aux h))
where
  census_inv_aux {t : TeamState} (ht : OnbInv t) :
      OnbInv (census { t with ticks := t.ticks + 1 }) := ⟨ht.1, ht.2⟩

lemma runTicks_inv (cfg : Config) (rng : ℕ → ℕ) :
    ∀ (n : ℕ) (s : TeamState), OnbInv s → OnbInv (runTicks cfg rng n s) := by
  intro n
  induction n with
  | zero => intro s h; exact h
  | succ n ih =>
    intro s h
    exact ih (tick cfg rng s) (tick_inv cfg rng s h)

/-! ## Tick-level and run-level lemmas -/

@[simp]
lemma tick_ticks (cfg : Config) (rng : ℕ → ℕ) (s : TeamState) :
    (tick cfg rng s).ticks = s.ticks + 1 := by
  simp only [tick]
  split
  · rfl
  · simp

lemma runTicks_ticks (cfg : Config) (rng : ℕ → ℕ) :
    ∀ (n : ℕ) (s : TeamState), (runTicks cfg rng n s).ticks = s.ticks + n := by
  intro n
  induction n with
  | zero => intro s; rfl
  | succ n ih =>
    intro s
    rw [runTicks, ih, tick_ticks]
    omega

lemma tick_operational (cfg : Config) (rng : ℕ → ℕ) (s : TeamState) :
    (tick cfg rng s).operational_work = s.operational_work := by
  simp only [tick]
  split
  · rfl
  · simp

lemma runTicks_operational (cfg : Config) (rng : ℕ → ℕ) :
    ∀ (n : ℕ) (s : TeamState),
      (runTicks cfg rng n s).operational_work = s.operational_work := by
  intro n
  induction n with
  | zero => intro s; rfl
  | succ n ih =>
    intro s
    rw [runTicks, ih, tick_operational]

lemma tick_assigned_len (cfg : Config) (rng : ℕ → ℕ) (s : TeamState) (c : SREWorkType) :
    ((tick cfg rng s).assigned_history c).length =
      (s.assigned_history c).length + (if s.work_items = [] then 0 else 1) := by
  simp only [tick]
  split
  case isTrue h =>
    have hq : s.work_items = [] := h
    simp [hq]
  case isFalse h =>
    have hq : ¬s.work_items = [] := h
    simp [hq]

lemma tick_performed_len (cfg : Config) (rng : ℕ → ℕ) (s : TeamState) (c : SREWorkType) :
    ((tick cfg rng s).performed_history c).length =
      (s.performed_history c).length + (if s.work_items = [] then 0 else 1) := by
  simp only [tick]
  split
  case isTrue h =>
    have hq : s.work_items = [] := h
    simp [hq]
  case isFalse h =>
    have hq : ¬s.work_items = [] := h
    simp [hq]

lemma runTicks_series_len (cfg : Config) (rng : ℕ → ℕ) :
    ∀ (n : ℕ) (s : TeamState) (c : SREWorkType),
      ((runTicks cfg rng n s).assigned_history c).length =
          (s.assigned_history c).length + steadyCount cfg rng n s ∧
        ((runTicks cfg rng n s).performed_history c).length =
          (s.performed_history c).length + steadyCount cfg rng n s := by
  intro n
  induction n with
  | zero => intro s c; simp [runTicks, steadyCount]
  | succ n ih =>
    intro s c
    rw [runTicks, steadyCount]
    obtain ⟨ha, hp⟩ := ih (tick cfg rng s) c
    rw [ha, hp, tick_assigned_len, tick_performed_len]
    constructor <;> omega

/-- On a steady tick the census prepends the history append to the tick, so
the integer appended to `performed_history c` is the tally left over from
processing in the previous tick (`s.tracking c`). -/
lemma tick_performed_append (cfg : Config) (rng : ℕ → ℕ) (s : TeamState)
    (c : SREWorkType) (h : s.work_items ≠ []) :
    (tick cfg rng s).performed_history c = s.performed_history c ++ [s.tracking c] := by
  simp only [tick]
  split
  case isTrue hq => exact absurd hq h
  case isFalse _ => simp

/-- On a steady tick the census appends the queue count of each category to
`assigned_history`, before admission and processing run. -/
lemma tick_assigned_append (cfg : Config) (rng : ℕ → ℕ) (s : TeamState)
    (c : SREWorkType) (h : s.work_items ≠ []) :
    (tick cfg rng s).assigned_history c =
      s.assigned_history c ++ [countW c s.work_items] := by
  simp only [tick]
  split
  case isTrue hq => exact absurd hq h
  case isFalse _ => simp

lemma processRun_track_onb (cfg : Config) (rng : ℕ → ℕ) (s : TeamState) :
    (processRun cfg rng s).track ONBOARDING = 0 :=
  processLoop_track_onb cfg rng _ _ _ _ _ _ _

lemma tick_perf_onb (cfg : Config) (rng : ℕ → ℕ) (s : TeamState)
    (h1 : s.tracking ONBOARDING = 0)
    (h2 : ∀ x ∈ s.performed_history ONBOARDING, x = 0) :
    (tick cfg rng s).tracking ONBOARDING = 0 ∧
      ∀ x ∈ (tick cfg rng s).performed_history ONBOARDING, x = 0 := by
  simp only [tick]
  split
  case isTrue _ => exact ⟨h1, h2⟩
  case isFalse _ =>
    constructor
    · rw [process_work_tracking]
      exact processRun_track_onb cfg rng _
    · intro x hx
      simp only [process_work_performed, assign_work_performed, census_performed] at hx
      rcases List.mem_append.mp hx with hmem | hmem
      · exact h2 x hmem
      · simpa [h1] using hmem

lemma runTicks_perf_onb (cfg : Config) (rng : ℕ → ℕ) :
    ∀ (n : ℕ) (s : TeamState),
      s.tracking ONBOARDING = 0 → (∀ x ∈ s.performed_history ONBOARDING, x = 0) →
      (runTicks cfg rng n s).tracking ONBOARDING = 0 ∧
        ∀ x ∈ (runTicks cfg rng n s).performed_history ONBOARDING, x = 0 := by
  intro n
  induction n with
  | zero => intro s h1 h2; exact ⟨h1, h2⟩
  | succ n ih =>
    intro s h1 h2
    obtain ⟨g1, g2⟩ := tick_perf_onb cfg rng s h1 h2
    exact ih (tick cfg rng s) g1 g2

/-! ## Claim theorems -/

/-- Claim C1 (code bug evidence): the spec says the operational-growth step
updates `operational_baseline` to `round(baseline * growth_factor) +
onboarding_count`, but `add_scaled_operational` never writes
`new_operational_work` back, so the baseline is unchanged by every admission
step and stays at its initial value 1 for the whole run; at the failing
input (baseline 1, onboardings 3) the newly computed value is 4 while the
stored baseline remains 1. -/
theorem operational_baseline_never_updated :
    (∀ (cfg : Config) (rng : ℕ → ℕ) (s : TeamState),
        (assign_work cfg rng s).operational_work = s.operational_work) ∧
      (∀ (rng : ℕ → ℕ) (n : ℕ),
        (runTicks defaultConfig rng n initTeam).operational_work = 1) ∧
      (add_scaled_operational defaultConfig
          { initTeam with onboardings := 3 }).operational_work = 1 ∧
      pyRound 1 defaultConfig.growth + 3 = 4 := by
  refine ⟨fun cfg rng s => ?_, fun rng n => ?_, ?_, ?_⟩
  · simp
  · rw [runTicks_operational]; rfl
  · decide
  · decide

/-- Claim C2 counterexample: with the constant random stream 1, after two
ticks (one bootstrap, one steady) the OPERATIONAL performed series holds
exactly the integer 0 appended during the steady tick, while the Processing
Policy tally produced during that same steady tick is 4 (in `tracking`): the
integer appended on steady tick t is not the tally of tick t, because the census
runs before processing. -/
theorem census_precedes_processing_cex :
    (runTicks defaultConfig (fun _ => 1) 2 initTeam).performed_history OPERATIONAL = [0] ∧
      (runTicks defaultConfig (fun _ => 1) 2 initTeam).tracking OPERATIONAL = 4 := by
  constructor
  · decide
  · decide

/-- Claim C2 amended: within a steady tick the History Tracker append runs
first — `SRE_team.run` calls `census` before `assign_work` and
`process_work` — so the integer appended to `performed_series[c]` on a
steady tick equals the Processing Policy tally left over from the previous
steady tick (zero before any processing has run). -/
theorem performed_append_is_previous_tally (cfg : Config) (rng : ℕ → ℕ)
    (s : TeamState) (c : SREWorkType) (h : s.work_items ≠ []) :
    (tick cfg rng s).performed_history c = s.performed_history c ++ [s.tracking c] :=
  tick_performed_append cfg rng s c h

/-- Witness for the amended C2 theorem at the concrete post-bootstrap
state. -/
theorem performed_append_is_previous_tally_witness :
    (runTicks defaultConfig (fun _ => 1) 1 initTeam).work_items ≠ [] ∧
      (tick defaultConfig (fun _ => 1)
            (runTicks defaultConfig (fun _ => 1) 1 initTeam)).performed_history OPERATIONAL =
        (runTicks defaultConfig (fun _ => 1) 1 initTeam).performed_history OPERATIONAL ++
          [(runTicks defaultConfig (fun _ => 1) 1 initTeam).tracking OPERATIONAL] :=
  ⟨by decide,
    performed_append_is_previous_tally defaultConfig (fun _ => 1) _ OPERATIONAL (by decide)⟩

/-- Claim C3: in the processing of a single tick with the source capacity limit
10, the number of OPERATIONAL tokens tallied as performed never exceeds 5,
half the capacity, for every queue and every random stream. -/
theorem operational_tally_le_half_capacity (rng : ℕ → ℕ) (s : TeamState) :
    (process_work defaultConfig rng s).tracking OPERATIONAL ≤ 5 := by
  obtain ⟨h1, h2⟩ := processLoop_op_bound defaultConfig rng
    (2 * defaultConfig.capacity + s.work_items.length + 1) s.work_items
    s.onboarding_in_progress (fun _ => 0) s.ridx 0 0 (by simp) (by decide)
  rw [process_work_tracking, processRun]
  have hcap : defaultConfig.capacity = 10 := rfl
  omega

/-- Claim C4: in every state reachable by whole ticks of a run (the
per-phase lemmas extend this through every intermediate phase and every loop
iteration), at most one ONBOARDING token is resident in the work queue, and
`onboarding_in_progress` is true exactly when one admitted onboarding token
is still in the queue. -/
theorem onboarding_exclusivity_invariant (cfg : Config) (rng : ℕ → ℕ) (n : ℕ) :
    countW ONBOARDING (runTicks cfg rng n initTeam).work_items ≤ 1 ∧
      ((runTicks cfg rng n initTeam).onboarding_in_progress = true ↔
        countW ONBOARDING (runTicks cfg rng n initTeam).work_items = 1) :=
  runTicks_inv cfg rng n initTeam initTeam_inv

/-- Claim C5: after any number of ticks, every one of the four
`assigned_series` lists and the four `performed_series` lists has length
equal to the number of steady (non-bootstrap) ticks elapsed: exactly one
integer is appended per category per steady tick and none on a bootstrap
tick. -/
theorem series_lengths_eq_steady_ticks (cfg : Config) (rng : ℕ → ℕ) (n : ℕ)
    (c : SREWorkType) :
    ((runTicks cfg rng n initTeam).assigned_history c).length =
        steadyCount cfg rng n initTeam ∧
      ((runTicks cfg rng n initTeam).performed_history c).length =
        steadyCount cfg rng n initTeam := by
  have h := runTicks_series_len cfg rng n initTeam c
  simpa [initTeam] using h

/-- Claim C6 counterexample: at baseline 10 (strictly below the cap 20),
onboarding count 0 and growth factor 1/2, the claim says
round(10 * (1/2)) + 0 - 10 = -5 OPERATIONAL tokens are appended, but the
step appends none (the queue, empty before, is still empty): the number
appended does not equal round(b*g) + n - b. -/
theorem growth_delta_claim_cex :
    ({ initTeam with operational_work := 10 } : TeamState).operational_work <
        (({ defaultConfig with growth := ⟨1, 2, by decide, by decide⟩ } : Config).maxOperational : ℤ) ∧
      ¬(((add_scaled_operational { defaultConfig with growth := ⟨1, 2, by decide, by decide⟩ }
              { initTeam with operational_work := 10 }).work_items.length : ℤ) -
            (({ initTeam with operational_work := 10 } : TeamState).work_items.length : ℤ) =
          pyRound 10 ⟨1, 2, by decide, by decide⟩ + 0 - 10) := by
  constructor
  · decide
  · decide

/-- Claim C6 amended: for every configuration and state, when the baseline
is strictly below the operational cap the growth step appends exactly
`max(round(b*g) + n - b, 0)` OPERATIONAL tokens at the queue tail (the
delta clamped at zero, as `range` of a negative delta is empty), and at or
above the cap it appends none — this is `opDelta`. -/
theorem add_scaled_appends_replicate (cfg : Config) (s : TeamState) :
    (add_scaled_operational cfg s).work_items =
      s.work_items ++ List.replicate (opDelta cfg s) OPERATIONAL := by
  rw [add_scaled_eq]

/-- Claim C7: popping an ONBOARDING token appends one IN_TEAM_PROJECT and
one OPERATIONAL token at the tail, lowers the guard, adds 2 to the capacity
counter and adds 1 to the CROSS_TEAM_PROJECT tally while leaving the
ONBOARDING tally unchanged; consequently every entry ever recorded in
`performed_series[ONBOARDING]` is 0. -/
theorem onboarding_rule_effects :
    (∀ (cfg : Config) (rng : ℕ → ℕ) (fuel : ℕ) (queue : List SREWorkType) (guard : Bool)
        (track : SREWorkType → ℕ) (ridx op capacity : ℕ), capacity < cfg.capacity →
        processLoop cfg rng (fuel + 1) (ONBOARDING :: queue) guard track ridx op capacity =
          processLoop cfg rng fuel (queue ++ [IN_TEAM_PROJECT, OPERATIONAL]) false
            (bump track CROSS_TEAM_PROJECT) ridx op (capacity + 2)) ∧
      (∀ (track : SREWorkType → ℕ),
        bump track CROSS_TEAM_PROJECT CROSS_TEAM_PROJECT = track CROSS_TEAM_PROJECT + 1 ∧
          bump track CROSS_TEAM_PROJECT ONBOARDING = track ONBOARDING) ∧
      (∀ (rng : ℕ → ℕ) (n : ℕ),
        ∀ x ∈ (runTicks defaultConfig rng n initTeam).performed_history ONBOARDING, x = 0) := by
  refine ⟨fun cfg rng fuel queue guard track ridx op capacity hc => ?_,
    fun track => ⟨?_, ?_⟩, fun rng n => ?_⟩
  · simp only [processLoop, if_pos hc]
  · simp [bump]
  · simp [bump]
  · exact (runTicks_perf_onb defaultConfig rng n initTeam rfl
      (fun x hx => absurd hx (List.not_mem_nil x))).2

/-- Witness for C7 at concrete inputs: one ONBOARDING pop from capacity 0,
and the entry 0 of the ONBOARDING performed series after two ticks. -/
theorem onboarding_rule_effects_witness :
    (processLoop defaultConfig (fun _ => 1) 1 [ONBOARDING] false (fun _ => 0) 0 0 0 =
        processLoop defaultConfig (fun _ => 1) 0 [IN_TEAM_PROJECT, OPERATIONAL] false
          (bump (fun _ => 0) CROSS_TEAM_PROJECT) 0 0 2) ∧
      (0 : ℕ) = 0 :=
  ⟨onboarding_rule_effects.1 defaultConfig (fun _ => 1) 0 [] false (fun _ => 0) 0 0 0
      (by decide),
    onboarding_rule_effects.2.2 (fun _ => 1) 2 0 (by decide)⟩

/-- Claim C8 counterexample: with onboarding limit, capacity and growth cap
all configured as 0 (non-positive) and horizon 1, construction succeeds and
the engine executes a tick — the source has no ConfigurationError and
`SRE_team.__init__` performs no validation at all. -/
theorem invalid_config_runs_cex :
    (runSim { capacity := 0, onboardLimit := 0, maxOperational := 0,
              growth := QUARTERLY_GROWTH, horizon := 1 } (fun _ => 1)).ticks = 1 := by
  decide

/-- Claim C8 amended: engine construction performs no configuration
validation and cannot fail; for every configuration — including non-positive
limits, caps or horizon — and every random stream, the run executes exactly
`horizon` ticks. -/
theorem no_config_validation (cfg : Config) (rng : ℕ → ℕ) :
    (runSim cfg rng).ticks = cfg.horizon := by
  rw [runSim, runTicks_ticks]
  show 0 + cfg.horizon = cfg.horizon
  omega

/-- Claim C9: the per-tick processing loop always terminates (it is a total
function of the queue and the draws, with provably sufficient fuel), and it
stops exactly by reaching the capacity limit or by finding the queue empty
at a head pop; the empty pop is handled inside the loop (the result is an
ordinary state, not an error). -/
theorem process_loop_exit_condition (cfg : Config) (rng : ℕ → ℕ) (s : TeamState) :
    cfg.capacity ≤ (processRun cfg rng s).capacity ∨ (processRun cfg rng s).queue = [] := by
  rw [processRun]
  exact processLoop_exit cfg rng _ _ _ _ _ _ _ (by omega)

/-- Claim C10: over the processing of a single tick with the source capacity
limit 10, the per-category performed tallies sum to at most 10, although the
capacity counter itself can end at 11 — witnessed by a queue of nine
IN_TEAM_PROJECT tokens followed by an ONBOARDING, whose final capacity is
exactly 11. -/
theorem performed_sum_le_capacity :
    (∀ (rng : ℕ → ℕ) (s : TeamState),
        sum4 (processRun defaultConfig rng s).track ≤ 10 ∧
          (processRun defaultConfig rng s).capacity ≤ 11) ∧
      (processRun defaultConfig (fun _ => 1)
          { initTeam with
            work_items := List.replicate 9 IN_TEAM_PROJECT ++ [ONBOARDING] }).capacity = 11 := by
  constructor
  · intro rng s
    obtain ⟨h1, h2, h3⟩ := processLoop_sum_bound defaultConfig rng
      (2 * defaultConfig.capacity + s.work_items.length + 1) s.work_items
      s.onboarding_in_progress (fun _ => 0) s.ridx 0 0 (by simp [sum4]) (by simp [sum4])
      (by decide)
    rw [processRun]
    exact ⟨h2, h3⟩
  · decide

end SimSRE
